import Mathlib

/-!
Shallow embedding of `store.go` from the `captcha` repository: an in-memory
expiring key/value store (`memoryStore`) with two parallel mappings
(id to digits, id to creation time), a write counter, a sweep threshold
(`collectNum`) and a TTL (`expiration`, seconds).

Modelling choices:
* A Go byte slice is `Option (List Nat)`: `none` is the nil slice (the zero
  value returned on a missing key), `some l` is a non-nil slice with the
  given bytes; in particular `some []` is the non-nil empty slice `[]byte{}`
  that `Get` returns for an expired entry.
* Go maps are association lists with unique keys maintained by insertion;
  `mapLookup`, `mapInsert`, `mapDelete` mirror indexing, assignment and
  `delete` on a Go map.
* `time.Now().Unix()` is an explicit `now : Int` parameter of each
  operation that reads the clock.
* `Set` returns the new state together with a flag that is `true` exactly
  when the source executes `go s.collect()` (a sweep is scheduled); the
  sweep itself is the separate function `collect`.
-/

/-- A Go byte slice: `none` is the nil slice, `some l` a non-nil slice. -/
abbrev GoSlice := Option (List Nat)

/-- Go map indexing `m[k]`: the value of the first entry with key `k`. -/
def mapLookup {α : Type} : List (String × α) → String → Option α
  | [], _ => none
  | (k, v) :: rest, k2 => if k = k2 then some v else mapLookup rest k2

/-- Go map deletion `delete(m, k)`: remove every entry with key `k`. -/
def mapDelete {α : Type} : List (String × α) → String → List (String × α)
  | [], _ => []
  | p :: rest, k => if p.1 = k then mapDelete rest k else p :: mapDelete rest k

/-- Go map assignment `m[k] = v`: replace any entry with key `k`. -/
def mapInsert {α : Type} (m : List (String × α)) (k : String) (v : α) : List (String × α) :=
  (k, v) :: mapDelete m k

/-- The state of `memoryStore` (store.go, lines 33-43): the two parallel
mappings, the write counter `numStored`, the sweep threshold `collectNum`
and the TTL `expiration`. -/
structure memoryStore where
  digitsById : List (String × GoSlice)
  timeById : List (String × Int)
  numStored : Int
  collectNum : Int
  expiration : Int
  deriving DecidableEq, Repr

/-- `NewMemoryStore` (store.go, lines 48-55): both mappings initialized
empty, counter at the zero value, configuration stored as given. -/
def NewMemoryStore (collectNum : Int) (expiration : Int) : memoryStore :=
  { digitsById := []
    timeById := []
    numStored := 0
    collectNum := collectNum
    expiration := expiration }

/-- `memoryStore.Set` (store.go, lines 57-68): upsert digits and the current
time, increment the counter; when the counter exceeds `collectNum`,
`go s.collect()` is executed — the returned flag is `true` exactly then. -/
def memoryStore.Set (s : memoryStore) (id : String) (digits : GoSlice) (now : Int) :
    memoryStore × Bool :=
  let s1 : memoryStore :=
    { s with
      digitsById := mapInsert s.digitsById id digits
      timeById := mapInsert s.timeById id now
      numStored := s.numStored + 1 }
  if s1.numStored ≤ s1.collectNum then (s1, false) else (s1, true)

/-- `memoryStore.Get` (store.go, lines 70-105): returns the digits slice the
Go function returns, paired with the state after the call. Missing id yields
the nil slice; a present id with no timestamp yields `[]byte{}` without any
mutation; an entry with `t + expiration < now` is deleted from both mappings
and yields `[]byte{}`; otherwise the stored digits are returned, the entry
being deleted from both mappings when `clear` is set. -/
def memoryStore.Get (s : memoryStore) (id : String) (clear : Bool) (now : Int) :
    GoSlice × memoryStore :=
  match mapLookup s.digitsById id with
  | none => (none, s)
  | some digits =>
    match mapLookup s.timeById id with
    | none => (some [], s)
    | some t =>
      if t + s.expiration < now then
        (some [],
          { s with
            digitsById := mapDelete s.digitsById id
            timeById := mapDelete s.timeById id })
      else if clear then
        (digits,
          { s with
            digitsById := mapDelete s.digitsById id
            timeById := mapDelete s.timeById id })
      else
        (digits, s)

/-- `memoryStore.collect` (store.go, lines 108-120): reset the write counter
and delete from both mappings every id whose timestamp entry satisfies
`v + expiration < now`. -/
def memoryStore.collect (s : memoryStore) (now : Int) : memoryStore :=
  let expired : List String :=
    (s.timeById.filter (fun p => decide (p.2 + s.expiration < now))).map Prod.fst
  { s with
    numStored := 0
    digitsById := s.digitsById.filter (fun p => !(expired.contains p.1))
    timeById := s.timeById.filter (fun p => !(expired.contains p.1)) }

/-- The two mappings agree on which ids exist (the implicit invariant of
store.go: every path writes or deletes the two maps together). -/
def sameKeys (s : memoryStore) : Prop :=
  ∀ id : String, (mapLookup s.digitsById id).isSome = (mapLookup s.timeById id).isSome

/-- `memoryStore.Get` with its defensive branch (id present in `digitsById`
but absent from `timeById`, store.go lines 84-86) replaced by a marker
result that the real branch never produces for a live entry of that shape.
Used only to compare with `Get` on states satisfying `sameKeys`: the two
functions differ nowhere else, so their agreement shows the defensive
branch is unreachable there. -/
def memoryStore.GetAssumingSync (s : memoryStore) (id : String) (clear : Bool) (now : Int) :
    GoSlice × memoryStore :=
  match mapLookup s.digitsById id with
  | none => (none, s)
  | some digits =>
    match mapLookup s.timeById id with
    | none => (some [9, 9, 9], s)
    | some t =>
      if t + s.expiration < now then
        (some [],
          { s with
            digitsById := mapDelete s.digitsById id
            timeById := mapDelete s.timeById id })
      else if clear then
        (digits,
          { s with
            digitsById := mapDelete s.digitsById id
            timeById := mapDelete s.timeById id })
      else
        (digits, s)

/-! ### Lemmas about the map model -/

theorem mapLookup_mapDelete_self {α : Type} (m : List (String × α)) (k : String) :
    mapLookup (mapDelete m k) k = none := by
  induction m with
  | nil => rfl
  | cons p rest ih =>
    by_cases h : p.1 = k
    · simpa [mapDelete, h] using ih
    · simpa [mapDelete, h, mapLookup] using ih

theorem mapLookup_mapDelete_ne {α : Type} (m : List (String × α)) (k k2 : String)
    (h : k ≠ k2) : mapLookup (mapDelete m k) k2 = mapLookup m k2 := by
  induction m with
  | nil => rfl
  | cons p rest ih =>
    by_cases hp : p.1 = k
    · have hpk2 : p.1 ≠ k2 := hp ▸ h
      simpa [mapDelete, hp, mapLookup, h] using ih
    · by_cases hp2 : p.1 = k2
      · simp [mapDelete, hp, mapLookup, hp2, Ne.symm h]
      · simpa [mapDelete, hp, mapLookup, hp2] using ih

theorem mapLookup_mapInsert_self {α : Type} (m : List (String × α)) (k : String) (v : α) :
    mapLookup (mapInsert m k v) k = some v := by
  simp [mapInsert, mapLookup]

theorem mapLookup_mapInsert_ne {α : Type} (m : List (String × α)) (k k2 : String) (v : α)
    (h : k ≠ k2) : mapLookup (mapInsert m k v) k2 = mapLookup m k2 := by
  simp [mapInsert, mapLookup, h]
  exact mapLookup_mapDelete_ne m k k2 h

theorem mapLookup_filterKeys {α : Type} (m : List (String × α)) (l : List String)
    (k : String) :
    mapLookup (m.filter (fun p => !(l.contains p.1))) k =
      if l.contains k then none else mapLookup m k := by
  induction m with
  | nil => simp [mapLookup]
  | cons p rest ih =>
    rw [List.filter_cons]
    by_cases hc : (!l.contains p.1) = true
    · have hmem : l.contains p.1 = false := by simpa using hc
      rw [if_pos hc]
      by_cases hp : p.1 = k
      · subst hp
        rw [if_neg (by simpa using hc)]
        simp [mapLookup]
      · simp only [mapLookup, if_neg hp]
        rw [ih]
    · have hmem : l.contains p.1 = true := by simpa using hc
      rw [if_neg hc, ih]
      by_cases hp : p.1 = k
      · subst hp
        rw [if_pos hmem, if_pos hmem]
      · by_cases hlk : l.contains k = true
        · rw [if_pos hlk, if_pos hlk]
        · rw [if_neg hlk, if_neg hlk]
          simp [mapLookup, hp]

theorem mem_of_mapLookup {α : Type} (m : List (String × α)) (k : String) (v : α)
    (h : mapLookup m k = some v) : (k, v) ∈ m := by
  induction m with
  | nil => simp [mapLookup] at h
  | cons p rest ih =>
    by_cases hp : p.1 = k
    · simp [mapLookup, hp] at h
      have hpk : p = (k, v) := by
        cases p
        simp_all
      exact List.mem_cons.mpr (Or.inl hpk.symm)
    · simp [mapLookup, hp] at h
      exact List.mem_cons.mpr (Or.inr (ih h))

/-! ### Shape lemmas for the store operations -/

theorem Set_fst (s : memoryStore) (id : String) (d : GoSlice) (now : Int) :
    (s.Set id d now).1 =
      { s with
        digitsById := mapInsert s.digitsById id d
        timeById := mapInsert s.timeById id now
        numStored := s.numStored + 1 } := by
  simp only [memoryStore.Set]
  split <;> rfl

theorem Set_snd (s : memoryStore) (id : String) (d : GoSlice) (now : Int) :
    (s.Set id d now).2 = true ↔ s.collectNum < s.numStored + 1 := by
  simp only [memoryStore.Set]
  split <;> rename_i hle <;> simp <;> omega

theorem Get_notFound (s : memoryStore) (id : String) (clear : Bool) (now : Int)
    (hd : mapLookup s.digitsById id = none) :
    s.Get id clear now = (none, s) := by
  simp [memoryStore.Get, hd]

theorem Get_missingTime (s : memoryStore) (id : String) (clear : Bool) (now : Int)
    (d : GoSlice) (hd : mapLookup s.digitsById id = some d)
    (ht : mapLookup s.timeById id = none) :
    s.Get id clear now = (some [], s) := by
  simp [memoryStore.Get, hd, ht]

theorem Get_expired (s : memoryStore) (id : String) (clear : Bool) (now : Int)
    (d : GoSlice) (t : Int)
    (hd : mapLookup s.digitsById id = some d)
    (ht : mapLookup s.timeById id = some t)
    (hexp : t + s.expiration < now) :
    s.Get id clear now =
      (some [],
        { s with
          digitsById := mapDelete s.digitsById id
          timeById := mapDelete s.timeById id }) := by
  simp [memoryStore.Get, hd, ht, hexp]

theorem Get_live_keep (s : memoryStore) (id : String) (now : Int)
    (d : GoSlice) (t : Int)
    (hd : mapLookup s.digitsById id = some d)
    (ht : mapLookup s.timeById id = some t)
    (hexp : ¬ t + s.expiration < now) :
    s.Get id false now = (d, s) := by
  simp [memoryStore.Get, hd, ht, hexp]

theorem Get_live_clear (s : memoryStore) (id : String) (now : Int)
    (d : GoSlice) (t : Int)
    (hd : mapLookup s.digitsById id = some d)
    (ht : mapLookup s.timeById id = some t)
    (hexp : ¬ t + s.expiration < now) :
    s.Get id true now =
      (d,
        { s with
          digitsById := mapDelete s.digitsById id
          timeById := mapDelete s.timeById id }) := by
  simp [memoryStore.Get, hd, ht, hexp]

theorem collect_digits (s : memoryStore) (now : Int) :
    (s.collect now).digitsById =
      s.digitsById.filter
        (fun p =>
          !(((s.timeById.filter (fun q => decide (q.2 + s.expiration < now))).map
              Prod.fst).contains p.1)) := rfl

theorem collect_time (s : memoryStore) (now : Int) :
    (s.collect now).timeById =
      s.timeById.filter
        (fun p =>
          !(((s.timeById.filter (fun q => decide (q.2 + s.expiration < now))).map
              Prod.fst).contains p.1)) := rfl

theorem mapLookup_eq_of_mem_nodup {α : Type} (m : List (String × α)) (k : String) (v : α)
    (hmem : (k, v) ∈ m) (hnd : (m.map Prod.fst).Nodup) : mapLookup m k = some v := by
  induction m with
  | nil => simp at hmem
  | cons p rest ih =>
    simp only [List.map_cons, List.nodup_cons] at hnd
    rcases List.mem_cons.mp hmem with h | h
    · subst h
      simp [mapLookup]
    · have hp : p.1 ≠ k := by
        intro hk
        exact hnd.1 (hk ▸ (List.mem_map.mpr ⟨(k, v), h, rfl⟩))
      simp [mapLookup, hp]
      exact ih h hnd.2


/-! ### Claims -/

/-- C1, counterexample: with createdAt = 0 and TTL = 5, a `Get` at `now = 5`
(age exactly equal to the TTL) returns the stored digits — the Found
outcome — and leaves the store untouched, instead of the Expired sentinel
`[]byte{}` the claim requires at that boundary. -/
theorem c1_counterexample :
    (memoryStore.Get ⟨[("a", some [1])], [("a", 0)], 0, 10, 5⟩ "a" false 5).1 = some [1] ∧
    (memoryStore.Get ⟨[("a", some [1])], [("a", 0)], 0, 10, 5⟩ "a" false 5).2 =
      ⟨[("a", some [1])], [("a", 0)], 0, 10, 5⟩ := by
  constructor <;> rfl

/-- C1, amended: for a stored entry with digits `d` and creation time `t`,
`Get` treats the entry as expired — deleting it from both mappings and
returning the `[]byte{}` sentinel — exactly when `now - t > TTL` at read
time (strictly greater); when `now - t ≤ TTL`, in particular when the age
equals the TTL exactly, `Get` returns the stored digits `d` (the Found
path). -/
theorem c1_get_expiry_strict (s : memoryStore) (id : String) (clear : Bool)
    (d : GoSlice) (t now : Int)
    (hd : mapLookup s.digitsById id = some d)
    (ht : mapLookup s.timeById id = some t) :
    (s.expiration < now - t →
        s.Get id clear now =
          (some [],
            { s with
              digitsById := mapDelete s.digitsById id
              timeById := mapDelete s.timeById id })) ∧
    (now - t ≤ s.expiration → (s.Get id clear now).1 = d) := by
  constructor
  · intro hgt
    exact Get_expired s id clear now d t hd ht (by omega)
  · intro hle
    cases clear
    · rw [Get_live_keep s id now d t hd ht (by omega)]
    · rw [Get_live_clear s id now d t hd ht (by omega)]

/-- C1, witness for the amended theorem at a concrete store. -/
theorem c1_witness :
    mapLookup (⟨[("a", some [1])], [("a", 0)], 0, 10, 5⟩ : memoryStore).digitsById "a" =
      some (some [1]) ∧
    mapLookup (⟨[("a", some [1])], [("a", 0)], 0, 10, 5⟩ : memoryStore).timeById "a" =
      some 0 ∧
    (((⟨[("a", some [1])], [("a", 0)], 0, 10, 5⟩ : memoryStore).expiration < 6 - 0 →
        memoryStore.Get ⟨[("a", some [1])], [("a", 0)], 0, 10, 5⟩ "a" false 6 =
          (some [],
            { (⟨[("a", some [1])], [("a", 0)], 0, 10, 5⟩ : memoryStore) with
              digitsById :=
                mapDelete (⟨[("a", some [1])], [("a", 0)], 0, 10, 5⟩ : memoryStore).digitsById "a"
              timeById :=
                mapDelete (⟨[("a", some [1])], [("a", 0)], 0, 10, 5⟩ : memoryStore).timeById "a" })) ∧
      (6 - 0 ≤ (⟨[("a", some [1])], [("a", 0)], 0, 10, 5⟩ : memoryStore).expiration →
        (memoryStore.Get ⟨[("a", some [1])], [("a", 0)], 0, 10, 5⟩ "a" false 6).1 = some [1])) :=
  ⟨by decide, by decide,
    c1_get_expiry_strict ⟨[("a", some [1])], [("a", 0)], 0, 10, 5⟩ "a" false (some [1]) 0 6
      (by decide) (by decide)⟩

/-- C2, counterexample: with threshold 1, a second `Set` pushes the counter
to 2, which exceeds the threshold, and `Set` schedules the sweep — but the
state `Set` returns still has the counter at 2, not 0: the reset happens
later, inside the sweep itself, not in `Set` before returning. -/
theorem c2_counterexample :
    ((((NewMemoryStore 1 10).Set "a" (some [1]) 0).1.Set "b" (some [2]) 0).2 = true) ∧
    ((((NewMemoryStore 1 10).Set "a" (some [1]) 0).1.Set "b" (some [2]) 0).1.numStored = 2) := by
  constructor <;> rfl

/-- C2, amended: every `Set` increments the write counter; a sweep is
scheduled exactly when the incremented counter exceeds the threshold, and
in every case `Set` returns with the counter at its incremented value —
the reset to 0 is performed by the sweep (`collect`) when it runs, not by
`Set` itself. -/
theorem c2_set_counter_sweep (s : memoryStore) (id : String) (d : GoSlice)
    (now now2 : Int) :
    ((s.Set id d now).1).numStored = s.numStored + 1 ∧
    ((s.Set id d now).2 = true ↔ s.collectNum < s.numStored + 1) ∧
    (((s.Set id d now).1).collect now2).numStored = 0 := by
  refine ⟨?_, Set_snd s id d now, ?_⟩
  · rw [Set_fst]
  · rfl

/-- C3, counterexample: in a state whose value mapping holds `"a"` while
the timestamp mapping does not, `Get("a", clear := true)` returns the
Expired sentinel `[]byte{}` but purges nothing — the state is returned
unchanged and the stale value is still present in the value mapping. -/
theorem c3_counterexample :
    memoryStore.Get ⟨[("a", some [1, 2])], [], 0, 10, 5⟩ "a" true 0 =
      (some [], ⟨[("a", some [1, 2])], [], 0, 10, 5⟩) ∧
    mapLookup (memoryStore.Get ⟨[("a", some [1, 2])], [], 0, 10, 5⟩ "a" true 0).2.digitsById
      "a" = some (some [1, 2]) := by
  constructor <;> rfl

/-- C3, amended: for a state where `id` is present in the value mapping but
absent from the timestamp mapping, `Get(id, clear)` for either value of
`clear` returns the Expired sentinel `[]byte{}` and leaves the store
entirely unchanged — it does not purge the entry. -/
theorem c3_missing_timestamp (s : memoryStore) (id : String) (clear : Bool) (now : Int)
    (d : GoSlice)
    (hd : mapLookup s.digitsById id = some d)
    (ht : mapLookup s.timeById id = none) :
    s.Get id clear now = (some [], s) :=
  Get_missingTime s id clear now d hd ht

/-- C3, witness for the amended theorem at a concrete store. -/
theorem c3_witness :
    mapLookup (⟨[("a", some [1, 2])], [], 0, 10, 5⟩ : memoryStore).digitsById "a" =
      some (some [1, 2]) ∧
    mapLookup (⟨[("a", some [1, 2])], [], 0, 10, 5⟩ : memoryStore).timeById "a" = none ∧
    memoryStore.Get ⟨[("a", some [1, 2])], [], 0, 10, 5⟩ "a" false 0 =
      (some [], ⟨[("a", some [1, 2])], [], 0, 10, 5⟩) :=
  ⟨by decide, by decide,
    c3_missing_timestamp ⟨[("a", some [1, 2])], [], 0, 10, 5⟩ "a" false 0 (some [1, 2])
      (by decide) (by decide)⟩

/-- C4: with a positive TTL, immediately after `Set(i, v)` a consuming read
`Get(i, true)` returns the stored digits `v` and removes `i` from both
mappings; any subsequent `Get(i, clear)` on the resulting state, at any
later time and for either `clear`, returns the NotFound sentinel (the nil
slice) and never the stored digits again, leaving the state unchanged. -/
theorem c4_consuming_read (s : memoryStore) (id : String) (v : GoSlice)
    (now now2 : Int) (clear2 : Bool) (hexp : 0 < s.expiration) :
    (((s.Set id v now).1.Get id true now).1 = v) ∧
    mapLookup ((s.Set id v now).1.Get id true now).2.digitsById id = none ∧
    mapLookup ((s.Set id v now).1.Get id true now).2.timeById id = none ∧
    ((s.Set id v now).1.Get id true now).2.Get id clear2 now2 =
      (none, ((s.Set id v now).1.Get id true now).2) := by
  rw [Set_fst]
  set s1 : memoryStore :=
    { s with
      digitsById := mapInsert s.digitsById id v
      timeById := mapInsert s.timeById id now
      numStored := s.numStored + 1 } with hs1
  have hd : mapLookup s1.digitsById id = some v := mapLookup_mapInsert_self _ _ _
  have ht : mapLookup s1.timeById id = some now := mapLookup_mapInsert_self _ _ _
  have hlive : ¬ now + s1.expiration < now := by
    have : s1.expiration = s.expiration := rfl
    omega
  rw [Get_live_clear s1 id now v now hd ht hlive]
  refine ⟨rfl, ?_, ?_, ?_⟩
  · exact mapLookup_mapDelete_self _ _
  · exact mapLookup_mapDelete_self _ _
  · exact Get_notFound _ id clear2 now2 (mapLookup_mapDelete_self _ _)

/-- C4, witness at a concrete store. -/
theorem c4_witness :
    (0 : Int) < (NewMemoryStore 10 100).expiration ∧
    ((((NewMemoryStore 10 100).Set "a" (some [1, 2]) 5).1.Get "a" true 5).1 = some [1, 2] ∧
      mapLookup (((NewMemoryStore 10 100).Set "a" (some [1, 2]) 5).1.Get "a" true
        5).2.digitsById "a" = none ∧
      mapLookup (((NewMemoryStore 10 100).Set "a" (some [1, 2]) 5).1.Get "a" true
        5).2.timeById "a" = none ∧
      ((((NewMemoryStore 10 100).Set "a" (some [1, 2]) 5).1.Get "a" true 5).2.Get "a" false
        99) =
        (none, (((NewMemoryStore 10 100).Set "a" (some [1, 2]) 5).1.Get "a" true 5).2)) :=
  ⟨by decide, c4_consuming_read (NewMemoryStore 10 100) "a" (some [1, 2]) 5 99 false
    (by decide)⟩

/-- C5: with a positive TTL, immediately after `Set(i, v)` a non-consuming
read `Get(i, false)` returns the stored digits `v` and leaves the state
completely unchanged, so a repeated `Get(i, false)` returns `v` again —
the non-consuming read is idempotent. -/
theorem c5_nonconsuming_read (s : memoryStore) (id : String) (v : GoSlice)
    (now : Int) (hexp : 0 < s.expiration) :
    (((s.Set id v now).1.Get id false now).1 = v) ∧
    (((s.Set id v now).1.Get id false now).2 = (s.Set id v now).1) ∧
    ((((s.Set id v now).1.Get id false now).2.Get id false now).1 = v) := by
  rw [Set_fst]
  set s1 : memoryStore :=
    { s with
      digitsById := mapInsert s.digitsById id v
      timeById := mapInsert s.timeById id now
      numStored := s.numStored + 1 } with hs1
  have hd : mapLookup s1.digitsById id = some v := mapLookup_mapInsert_self _ _ _
  have ht : mapLookup s1.timeById id = some now := mapLookup_mapInsert_self _ _ _
  have hlive : ¬ now + s1.expiration < now := by
    have : s1.expiration = s.expiration := rfl
    omega
  rw [Get_live_keep s1 id now v now hd ht hlive]
  refine ⟨rfl, rfl, ?_⟩
  rw [Get_live_keep s1 id now v now hd ht hlive]

/-- C5, witness at a concrete store. -/
theorem c5_witness :
    (0 : Int) < (NewMemoryStore 10 100).expiration ∧
    (((((NewMemoryStore 10 100).Set "a" (some [3]) 5).1.Get "a" false 5).1 = some [3]) ∧
      ((((NewMemoryStore 10 100).Set "a" (some [3]) 5).1.Get "a" false 5).2 =
        ((NewMemoryStore 10 100).Set "a" (some [3]) 5).1) ∧
      (((((NewMemoryStore 10 100).Set "a" (some [3]) 5).1.Get "a" false 5).2.Get "a" false
        5).1 = some [3])) :=
  ⟨by decide, c5_nonconsuming_read (NewMemoryStore 10 100) "a" (some [3]) 5 (by decide)⟩

/-- C6, counterexample: an entry with createdAt = 0 and TTL = 5 swept at
`now = 5` — age exactly equal to the TTL, so `now - createdAt ≥ TTL` holds —
is NOT removed: both its timestamp and its value survive the sweep. -/
theorem c6_counterexample :
    mapLookup (memoryStore.collect ⟨[("a", some [1])], [("a", 0)], 3, 10, 5⟩ 5).timeById "a" =
      some 0 ∧
    mapLookup (memoryStore.collect ⟨[("a", some [1])], [("a", 0)], 3, 10, 5⟩ 5).digitsById "a" =
      some (some [1]) := by
  constructor <;> rfl

/-- C6, amended: after `collect` at reference time `now`, the write counter
is 0; every id whose timestamp entry satisfies `now - createdAt > TTL`
(strictly) is removed from both mappings, and every id whose age is at most
the TTL — including age exactly equal to the TTL — keeps its value and its
timestamp unchanged. Stated for states whose timestamp mapping has no
duplicate keys, which holds for every reachable store. -/
theorem c6_sweep (s : memoryStore) (now : Int) (id : String) (t : Int)
    (hnd : (s.timeById.map Prod.fst).Nodup)
    (ht : mapLookup s.timeById id = some t) :
    (s.collect now).numStored = 0 ∧
    (t + s.expiration < now →
        mapLookup (s.collect now).digitsById id = none ∧
        mapLookup (s.collect now).timeById id = none) ∧
    (¬ t + s.expiration < now →
        mapLookup (s.collect now).digitsById id = mapLookup s.digitsById id ∧
        mapLookup (s.collect now).timeById id = some t) := by
  refine ⟨rfl, ?_, ?_⟩
  · intro hexp
    have hmemlist :
        id ∈ (s.timeById.filter (fun q => decide (q.2 + s.expiration < now))).map Prod.fst :=
      List.mem_map.mpr ⟨(id, t),
        List.mem_filter.mpr ⟨mem_of_mapLookup _ _ _ ht, by simpa using hexp⟩, rfl⟩
    have hmem : ((s.timeById.filter (fun q => decide (q.2 + s.expiration < now))).map
        Prod.fst).contains id = true := by simpa using hmemlist
    rw [collect_digits, collect_time, mapLookup_filterKeys, mapLookup_filterKeys,
      if_pos hmem, if_pos hmem]
    exact ⟨rfl, rfl⟩
  · intro hexp
    have hnotmem :
        id ∉ (s.timeById.filter (fun q => decide (q.2 + s.expiration < now))).map Prod.fst := by
      intro hk
      obtain ⟨p, hpmem, hpfst⟩ := List.mem_map.mp hk
      obtain ⟨hpin, hpexp⟩ := List.mem_filter.mp hpmem
      obtain ⟨p1, p2⟩ := p
      simp only at hpfst hpexp
      subst hpfst
      have hlook : mapLookup s.timeById p1 = some p2 :=
        mapLookup_eq_of_mem_nodup _ _ _ hpin hnd
      rw [ht] at hlook
      have hp2 : p2 = t := by
        injection hlook with h
        exact h.symm
      rw [hp2] at hpexp
      exact hexp (by simpa using hpexp)
    have hmem : ¬ (((s.timeById.filter (fun q => decide (q.2 + s.expiration < now))).map
        Prod.fst).contains id = true) := by simpa using hnotmem
    rw [collect_digits, collect_time, mapLookup_filterKeys, mapLookup_filterKeys,
      if_neg hmem, if_neg hmem]
    exact ⟨rfl, ht⟩

/-- C6, witness for the amended theorem at a concrete store. -/
theorem c6_witness :
    ((⟨[("a", some [1])], [("a", 0)], 3, 10, 5⟩ : memoryStore).timeById.map
      Prod.fst).Nodup ∧
    mapLookup (⟨[("a", some [1])], [("a", 0)], 3, 10, 5⟩ : memoryStore).timeById "a" =
      some 0 ∧
    ((memoryStore.collect ⟨[("a", some [1])], [("a", 0)], 3, 10, 5⟩ 9).numStored = 0 ∧
      ((0 : Int) + (⟨[("a", some [1])], [("a", 0)], 3, 10, 5⟩ : memoryStore).expiration < 9 →
        mapLookup (memoryStore.collect ⟨[("a", some [1])], [("a", 0)], 3, 10, 5⟩
          9).digitsById "a" = none ∧
        mapLookup (memoryStore.collect ⟨[("a", some [1])], [("a", 0)], 3, 10, 5⟩
          9).timeById "a" = none) ∧
      (¬ (0 : Int) + (⟨[("a", some [1])], [("a", 0)], 3, 10, 5⟩ : memoryStore).expiration < 9 →
        mapLookup (memoryStore.collect ⟨[("a", some [1])], [("a", 0)], 3, 10, 5⟩
          9).digitsById "a" =
          mapLookup (⟨[("a", some [1])], [("a", 0)], 3, 10, 5⟩ : memoryStore).digitsById "a" ∧
        mapLookup (memoryStore.collect ⟨[("a", some [1])], [("a", 0)], 3, 10, 5⟩
          9).timeById "a" = some 0)) :=
  ⟨by decide, by decide,
    c6_sweep ⟨[("a", some [1])], [("a", 0)], 3, 10, 5⟩ 9 "a" 0 (by decide) (by decide)⟩

/-- C7: for an id absent from the value mapping — never written or already
deleted — `Get` with either `clear` value returns the NotFound sentinel
(the nil slice) and leaves the state unchanged; that sentinel is
distinguishable from the Expired sentinel `[]byte{}` (nil versus a non-nil
empty slice). -/
theorem c7_not_found (s : memoryStore) (id : String) (now now2 : Int)
    (h : mapLookup s.digitsById id = none) :
    s.Get id false now = (none, s) ∧
    s.Get id true now2 = (none, s) ∧
    (none : GoSlice) ≠ some [] := by
  exact ⟨Get_notFound s id false now h, Get_notFound s id true now2 h, by decide⟩

/-- C7, witness at a concrete store. -/
theorem c7_witness :
    mapLookup (NewMemoryStore 10 100).digitsById "nope" = none ∧
    ((NewMemoryStore 10 100).Get "nope" false 3 = (none, NewMemoryStore 10 100) ∧
      (NewMemoryStore 10 100).Get "nope" true 4 = (none, NewMemoryStore 10 100) ∧
      (none : GoSlice) ≠ some []) :=
  ⟨by decide, c7_not_found (NewMemoryStore 10 100) "nope" 3 4 (by decide)⟩

/-- C8, counterexample: `NewMemoryStore 0 0` — non-positive threshold and
non-positive TTL — does not fail: it returns an ordinary store, and that
store is usable (a `Set` followed by a `Get` at the same instant returns
the stored digits). No fail-fast validation exists in the constructor. -/
theorem c8_counterexample :
    NewMemoryStore 0 0 = (⟨[], [], 0, 0, 0⟩ : memoryStore) ∧
    (((NewMemoryStore 0 0).Set "a" (some [7]) 5).1.Get "a" false 5).1 = some [7] := by
  constructor <;> rfl

/-- C8, amended: construction performs no validation at all — for every
threshold and TTL, positive or not, `NewMemoryStore` succeeds and yields a
store with both mappings initialized empty, write counter 0, and the given
configuration stored as-is. -/
theorem c8_construction (c e : Int) :
    NewMemoryStore c e =
      { digitsById := []
        timeById := []
        numStored := 0
        collectNum := c
        expiration := e } := rfl

/-! ### Preservation of the parallel-mappings invariant -/

theorem sameKeys_deleteBoth (s : memoryStore) (id : String) (h : sameKeys s) :
    sameKeys
      { s with
        digitsById := mapDelete s.digitsById id
        timeById := mapDelete s.timeById id } := by
  intro id2
  by_cases hid : id = id2
  · subst hid
    show (mapLookup (mapDelete s.digitsById id) id).isSome =
      (mapLookup (mapDelete s.timeById id) id).isSome
    rw [mapLookup_mapDelete_self, mapLookup_mapDelete_self]
    rfl
  · show (mapLookup (mapDelete s.digitsById id) id2).isSome =
      (mapLookup (mapDelete s.timeById id) id2).isSome
    rw [mapLookup_mapDelete_ne _ _ _ hid, mapLookup_mapDelete_ne _ _ _ hid]
    exact h id2

theorem sameKeys_set (s : memoryStore) (id : String) (v : GoSlice) (now : Int)
    (h : sameKeys s) : sameKeys ((s.Set id v now).1) := by
  rw [Set_fst]
  intro id2
  by_cases hid : id = id2
  · subst hid
    show (mapLookup (mapInsert s.digitsById id v) id).isSome =
      (mapLookup (mapInsert s.timeById id now) id).isSome
    rw [mapLookup_mapInsert_self, mapLookup_mapInsert_self]
    rfl
  · show (mapLookup (mapInsert s.digitsById id v) id2).isSome =
      (mapLookup (mapInsert s.timeById id now) id2).isSome
    rw [mapLookup_mapInsert_ne _ _ _ _ hid, mapLookup_mapInsert_ne _ _ _ _ hid]
    exact h id2

theorem sameKeys_get (s : memoryStore) (id : String) (clear : Bool) (now : Int)
    (h : sameKeys s) : sameKeys ((s.Get id clear now).2) := by
  cases hd : mapLookup s.digitsById id with
  | none =>
    rw [Get_notFound s id clear now hd]
    exact h
  | some d =>
    cases ht : mapLookup s.timeById id with
    | none =>
      rw [Get_missingTime s id clear now d hd ht]
      exact h
    | some t =>
      by_cases hexp : t + s.expiration < now
      · rw [Get_expired s id clear now d t hd ht hexp]
        exact sameKeys_deleteBoth s id h
      · cases clear
        · rw [Get_live_keep s id now d t hd ht hexp]
          exact h
        · rw [Get_live_clear s id now d t hd ht hexp]
          exact sameKeys_deleteBoth s id h

theorem sameKeys_collect (s : memoryStore) (now : Int) (h : sameKeys s) :
    sameKeys (s.collect now) := by
  intro id2
  show (mapLookup (s.collect now).digitsById id2).isSome =
    (mapLookup (s.collect now).timeById id2).isSome
  rw [collect_digits, collect_time, mapLookup_filterKeys, mapLookup_filterKeys]
  by_cases hc : ((s.timeById.filter (fun q => decide (q.2 + s.expiration < now))).map
      Prod.fst).contains id2 = true
  · rw [if_pos hc, if_pos hc]
    rfl
  · rw [if_neg hc, if_neg hc]
    exact h id2

theorem get_eq_getAssumingSync (s : memoryStore) (id : String) (clear : Bool) (now : Int)
    (h : sameKeys s) : s.Get id clear now = s.GetAssumingSync id clear now := by
  cases hd : mapLookup s.digitsById id with
  | none => simp [memoryStore.Get, memoryStore.GetAssumingSync, hd]
  | some d =>
    cases ht : mapLookup s.timeById id with
    | none =>
      exfalso
      have hc := h id
      rw [hd, ht] at hc
      simp at hc
    | some t => simp [memoryStore.Get, memoryStore.GetAssumingSync, hd, ht]

/-- C9: starting from `NewMemoryStore`, every operation — `Set`, `Get` with
either `clear`, and `collect` — preserves the invariant that the value
mapping and the timestamp mapping contain exactly the same ids
(`sameKeys`); consequently on any `sameKeys` state `Get` coincides with
`GetAssumingSync`, whose defensive missing-timestamp branch has been
replaced, so that branch is unreachable from any reachable state. -/
theorem c9_parallel_mappings (c e : Int) (s : memoryStore) (id : String) (v : GoSlice)
    (clear : Bool) (now : Int) (h : sameKeys s) :
    sameKeys (NewMemoryStore c e) ∧
    sameKeys ((s.Set id v now).1) ∧
    sameKeys ((s.Get id clear now).2) ∧
    sameKeys (s.collect now) ∧
    s.Get id clear now = s.GetAssumingSync id clear now :=
  ⟨fun _ => rfl, sameKeys_set s id v now h, sameKeys_get s id clear now h,
    sameKeys_collect s now h, get_eq_getAssumingSync s id clear now h⟩

/-- C9, witness at a concrete store. -/
theorem c9_witness :
    sameKeys (NewMemoryStore 2 5) ∧
    (sameKeys (NewMemoryStore 3 7) ∧
      sameKeys (((NewMemoryStore 2 5).Set "a" (some [1]) 0).1) ∧
      sameKeys (((NewMemoryStore 2 5).Get "a" false 0).2) ∧
      sameKeys ((NewMemoryStore 2 5).collect 0) ∧
      (NewMemoryStore 2 5).Get "a" false 0 =
        (NewMemoryStore 2 5).GetAssumingSync "a" false 0) :=
  ⟨fun _ => rfl,
    c9_parallel_mappings 3 7 (NewMemoryStore 2 5) "a" (some [1]) false 0 (fun _ => rfl)⟩

/-- C10: the store accepts a nil value and a non-nil empty value verbatim —
they are stored unchanged — and within the TTL, `Get` on a stored nil value
returns the nil slice, identical to the NotFound sentinel (compare the
never-written id), while `Get` on a stored non-nil empty value returns
`[]byte{}`, identical to the Expired sentinel (compare the same id read
after the TTL has strictly passed). -/
theorem c10_sentinel_collision :
    mapLookup ((((NewMemoryStore 10 100).Set "a" none 0).1.Set "b" (some []) 0).1).digitsById
      "a" = some none ∧
    mapLookup ((((NewMemoryStore 10 100).Set "a" none 0).1.Set "b" (some []) 0).1).digitsById
      "b" = some (some []) ∧
    ((((NewMemoryStore 10 100).Set "a" none 0).1.Set "b" (some []) 0).1.Get "a" false 0).1 =
      none ∧
    ((((NewMemoryStore 10 100).Set "a" none 0).1.Set "b" (some []) 0).1.Get "zzz" false 0).1 =
      none ∧
    ((((NewMemoryStore 10 100).Set "a" none 0).1.Set "b" (some []) 0).1.Get "b" false 0).1 =
      some [] ∧
    ((((NewMemoryStore 10 100).Set "a" none 0).1.Set "b" (some []) 0).1.Get "b" false
      1000).1 = some [] := by
  refine ⟨rfl, rfl, rfl, rfl, rfl, rfl⟩
